import Mathlib

/-!
Verification of the smartdrawer-backend command lifecycle engine.

The definitions below are a shallow embedding of the TypeScript sources:
  src/repositories/commands/CommandsRepository.ts  (data access on the Command table)
  src/services/commands/CommandsService.ts         (validation and lifecycle logic)
  src/services/devices/DevicesService.ts           (openDrawer / queueCommandForDevice)
  prisma/migrations/20251014222335_add_commands_table/migration.sql (schema, unique code index)

The Prisma store is modelled as an explicit list of command rows carried in a
`Store` value; every service operation takes the store and the current time and
returns the new store together with the operation's result (`ok` mirrors a
normal return, `error` mirrors a thrown exception: the TypeScript code throws
before any write on every error path, so error results leave the store as is).
-/

namespace SmartDrawer

/-- Model of JavaScript `String.prototype.trim()`: drop whitespace from both ends. -/
def jsTrim (s : String) : String :=
  String.mk (((s.data.dropWhile Char.isWhitespace).reverse.dropWhile Char.isWhitespace).reverse)

/-- Model of JavaScript `String.prototype.toUpperCase()` on ASCII data. -/
def jsToUpper (s : String) : String :=
  String.mk (s.data.map Char.toUpper)

/-- Model of JavaScript `String.prototype.replace(a, b)` with one-character
patterns: replace the first occurrence of `a` by `b`. -/
def jsReplaceFirst (a b : Char) : List Char → List Char
  | [] => []
  | c :: cs => if c = a then b :: cs else c :: jsReplaceFirst a b cs

/-- Command row, after the `Command` interface in CommandsRepository.ts and the
`Command` table of the migration. Times are integers counted in days. -/
structure Command where
  id : String
  deviceId : String
  code : String
  action : String
  drawer : Option Int
  status : String
  createdAt : Int
  executedAt : Option Int
  failedAt : Option Int
  errorMessage : Option String
deriving DecidableEq, Repr

/-- Input of command creation, after `CreateCommandDto`. -/
structure CreateCommandDto where
  deviceId : String
  action : String
  drawer : Option Int
deriving DecidableEq, Repr

/-- Device row, after the `Device` table (fields relevant to commands). -/
structure Device where
  id : String
  name : String
  status : String
  drawerCount : Int
deriving DecidableEq, Repr

/-- Device-facing command payload, after `CommandDto` in devices.types.ts. -/
structure CommandDto where
  action : String
  drawer : Option Int
deriving DecidableEq, Repr

/-- Error taxonomy of the service layer.  The TypeScript code throws `Error`
values and distinguishes the kinds by message substring ("not found",
"not in PENDING", validation texts); the embedding keeps them as constructors. -/
inductive SvcError where
  | validation (msg : String)
  | notFound (code : String)
  | invalidState (code : String) (current : String)
  | internal (msg : String)
deriving DecidableEq, Repr

/-- Result of a service call: a normal return or a thrown error. -/
inductive SvcResult (α : Type) where
  | ok (a : α)
  | error (e : SvcError)
deriving DecidableEq, Repr

/-- The persisted state: the rows of the Command table plus the fresh-identifier
counter of the code generator.  `created` is a history variable recording every
command ever handed out by creation, used only to state the global uniqueness
property; no operation reads it. -/
structure Store where
  commands : List Command
  nextId : Nat
  created : List Command
deriving DecidableEq, Repr

/-- The store of a fresh deployment: no commands yet. -/
def emptyStore : Store := { commands := [], nextId := 0, created := [] }

/-- Recognized actions, after `validActions` in CommandsService.createCommand. -/
def validActions : List String := ["OPEN", "CLOSE", "UNLOCK", "LOCK"]

/-- Modelled from the spec: the `code` column default generator lives in
`prisma/schema.prisma`, which is not part of the sources here (only the
migration declaring the unique index is); the spec says creation "Generates a
fresh unique `code`" that is otherwise opaque.  The model draws codes from the
store's counter; the shape of the string is irrelevant, only freshness is used. -/
def codeOf (n : Nat) : String :=
  String.mk ('C' :: 'M' :: 'D' :: '-' :: List.replicate n 'x')

/-- Modelled from the spec: the internal `id` column default (cuid) also lives
in the absent `prisma/schema.prisma`; the spec only requires an opaque unique
identifier.  Drawn from the same counter. -/
def idOf (n : Nat) : String :=
  String.mk ('i' :: 'd' :: '-' :: List.replicate n 'x')

/-- Default error message stored by `markAsFailed`, after CommandsRepository.ts. -/
def defaultErrorMessage : String := "Command execution failed"

/-- Model of the JavaScript expression `drawer || null` in CommandsRepository.create:
the falsy value 0 is coerced to null. -/
def jsOrNull : Option Int → Option Int
  | some v => if v = 0 then none else some v
  | none => none

/-- Model of `errorMessage || 'Command execution failed'` in
CommandsRepository.markAsFailed: undefined and the empty string fall back to
the default. -/
def jsOrDefault : Option String → String
  | some m => if m = "" then defaultErrorMessage else m
  | none => defaultErrorMessage

/-- CommandsRepository.findByCode: `prisma.command.findUnique({ where: { code } })`. -/
def findByCode (st : Store) (code : String) : Option Command :=
  st.commands.find? (fun c => c.code == code)

/-- Result order of `findFirst` with `orderBy: { createdAt: 'asc' }`: the first
row of minimal `createdAt`. -/
def minByCreatedAt : List Command → Option Command
  | [] => none
  | c :: rest =>
    match minByCreatedAt rest with
    | none => some c
    | some b => if c.createdAt ≤ b.createdAt then some c else some b

/-- CommandsRepository.findNextPending: `findFirst` on `deviceId` and status
`PENDING`, ordered by `createdAt` ascending. -/
def findNextPendingRepo (st : Store) (deviceId : String) : Option Command :=
  minByCreatedAt (st.commands.filter (fun c => c.deviceId == deviceId && c.status == "PENDING"))

/-- CommandsRepository.create: insert a new row with status `PENDING`, the
creation timestamp, and a freshly generated `code`. -/
def createRepo (st : Store) (data : CreateCommandDto) (now : Int) : Store × Command :=
  let cmd : Command :=
    { id := idOf st.nextId
      deviceId := data.deviceId
      code := codeOf st.nextId
      action := data.action
      drawer := jsOrNull data.drawer
      status := "PENDING"
      createdAt := now
      executedAt := none
      failedAt := none
      errorMessage := none }
  ({ commands := st.commands ++ [cmd], nextId := st.nextId + 1, created := st.created ++ [cmd] }, cmd)

/-- Row update applied by CommandsRepository.markAsExecuted. -/
def applyExecuted (now : Int) (c : Command) : Command :=
  { c with status := "EXECUTED", executedAt := some now }

/-- Row update applied by CommandsRepository.markAsFailed. -/
def applyFailed (now : Int) (em : Option String) (c : Command) : Command :=
  { c with status := "FAILED", failedAt := some now, errorMessage := some (jsOrDefault em) }

/-- CommandsRepository.markAsExecuted: `prisma.command.update({ where: { code }, ... })`.
The `where` clause matches on `code` alone; the update throws (`none`) only when
no row has that code, and otherwise overwrites the row regardless of its status. -/
def markAsExecutedRepo (st : Store) (code : String) (now : Int) : Option (Store × Command) :=
  match st.commands.find? (fun c => c.code == code) with
  | none => none
  | some c =>
    some ({ st with commands := st.commands.map (fun x => if x.code == code then applyExecuted now x else x) },
          applyExecuted now c)

/-- CommandsRepository.markAsFailed, same update semantics as `markAsExecutedRepo`. -/
def markAsFailedRepo (st : Store) (code : String) (em : Option String) (now : Int) :
    Option (Store × Command) :=
  match st.commands.find? (fun c => c.code == code) with
  | none => none
  | some c =>
    some ({ st with commands := st.commands.map (fun x => if x.code == code then applyFailed now em x else x) },
          applyFailed now em c)

/-- CommandsRepository.count: the spreads `...(deviceId && { deviceId })` and
`...(status && { status })` drop the filter when the argument is undefined or
the empty string (both falsy). -/
def countRepo (st : Store) (deviceId : Option String) (status : Option String) : Nat :=
  (st.commands.filter (fun c =>
    (match deviceId with
     | some d => if d = "" then true else c.deviceId == d
     | none => true) &&
    (match status with
     | some s => if s = "" then true else c.status == s
     | none => true))).length

/-- Deletion predicate of CommandsRepository.deleteOld: `createdAt` strictly
before the cutoff and status in `['EXECUTED', 'FAILED']`. -/
def isOldTerminal (cutoff : Int) (c : Command) : Bool :=
  decide (c.createdAt < cutoff) && (c.status == "EXECUTED" || c.status == "FAILED")

/-- CommandsRepository.deleteOld: compute the cutoff `now` minus the day count
and `deleteMany` the old terminal rows, returning how many went away. -/
def deleteOldRepo (st : Store) (olderThanDays : Int) (now : Int) : Store × Nat :=
  let cutoff := now - olderThanDays
  ({ st with commands := st.commands.filter (fun c => !(isOldTerminal cutoff c)) },
   (st.commands.filter (fun c => isOldTerminal cutoff c)).length)

/-- Validation of the optional drawer in CommandsService.createCommand:
`!Number.isInteger(drawer) || drawer < 1 || drawer > 10` (integrality is
automatic in the model). -/
def drawerOutOfRange : Option Int → Bool
  | some d => decide (d < 1) || decide (d > 10)
  | none => false

/-- CommandsService.createCommand: validates deviceId, action and drawer, then
stores the trimmed deviceId and the uppercased action. -/
def createCommand (st : Store) (data : CreateCommandDto) (now : Int) : Store × SvcResult Command :=
  if jsTrim data.deviceId = "" then (st, .error (.validation "Device ID is required"))
  else if jsTrim data.action = "" then (st, .error (.validation "Action is required"))
  else if jsToUpper data.action ∉ validActions then
    (st, .error (.validation "Invalid action. Must be one of: OPEN, CLOSE, UNLOCK, LOCK"))
  else if drawerOutOfRange data.drawer then
    (st, .error (.validation "Drawer must be an integer between 1 and 10"))
  else
    let r := createRepo st { deviceId := jsTrim data.deviceId, action := jsToUpper data.action, drawer := data.drawer } now
    (r.1, .ok r.2)

/-- CommandsService.getNextPendingCommand: a pure read; no store is returned
because the TypeScript code performs no write. -/
def getNextPendingCommand (st : Store) (deviceId : String) : SvcResult (Option Command) :=
  if jsTrim deviceId = "" then .error (.validation "Device ID is required")
  else .ok (findNextPendingRepo st (jsTrim deviceId))

/-- The read-and-check phase shared verbatim by CommandsService.markCommandAsExecuted
and markCommandAsFailed: trim the code, `findByCode`, require status `PENDING`. -/
def confirmationCheck (st : Store) (code : String) : SvcResult Command :=
  if jsTrim code = "" then .error (.validation "Command code is required")
  else
    match findByCode st (jsTrim code) with
    | none => .error (.notFound (jsTrim code))
    | some c =>
      if c.status ≠ "PENDING" then .error (.invalidState (jsTrim code) c.status)
      else .ok c

/-- CommandsService.markCommandAsExecuted: the check phase above followed by the
separate repository write. -/
def markCommandAsExecuted (st : Store) (code : String) (now : Int) : Store × SvcResult Command :=
  match confirmationCheck st code with
  | .error e => (st, .error e)
  | .ok _ =>
    match markAsExecutedRepo st (jsTrim code) now with
    | some r => (r.1, .ok r.2)
    | none => (st, .error (.internal "Failed to mark command as executed"))

/-- CommandsService.markCommandAsFailed: same shape, with the optional trimmed
error message (`errorMessage?.trim()`). -/
def markCommandAsFailed (st : Store) (code : String) (errorMessage : Option String) (now : Int) :
    Store × SvcResult Command :=
  match confirmationCheck st code with
  | .error e => (st, .error e)
  | .ok _ =>
    match markAsFailedRepo st (jsTrim code) (errorMessage.map jsTrim) now with
    | some r => (r.1, .ok r.2)
    | none => (st, .error (.internal "Failed to mark command as failed"))

/-- Aggregate returned by CommandsService.getCommandStatistics. -/
structure CommandStats where
  pending : Nat
  executed : Nat
  failed : Nat
  total : Nat
deriving DecidableEq, Repr

/-- CommandsService.getCommandStatistics: four counts over the same table. -/
def getCommandStatistics (st : Store) (deviceId : Option String) : CommandStats :=
  { pending := countRepo st deviceId (some "PENDING")
    executed := countRepo st deviceId (some "EXECUTED")
    failed := countRepo st deviceId (some "FAILED")
    total := countRepo st deviceId none }

/-- CommandsService.cleanupOldCommands: reject day counts below 1, then delegate
to the repository deletion. -/
def cleanupOldCommands (st : Store) (olderThanDays : Int) (now : Int) : Store × SvcResult Nat :=
  if olderThanDays < 1 then (st, .error (.validation "olderThanDays must be at least 1"))
  else
    let r := deleteOldRepo st olderThanDays now
    (r.1, .ok r.2)

/-- DevicesRepository.findById on the device registry. -/
def findDeviceById (reg : List Device) (id : String) : Option Device :=
  reg.find? (fun d => d.id == id)

/-- DevicesService.queueCommandForDevice: uppercase the action (replacing a
space by an underscore) and create the command, wrapping any creation failure. -/
def queueCommandForDevice (st : Store) (id : String) (cmd : CommandDto) (now : Int) :
    Store × SvcResult String :=
  let action := String.mk (jsReplaceFirst ' ' '_' (jsToUpper cmd.action).data)
  match createCommand st { deviceId := id, action := action, drawer := cmd.drawer } now with
  | (st', .ok c) => (st', .ok c.code)
  | (st', .error _) => (st', .error (.internal "Failed to queue command for device"))

/-- DevicesService.openDrawer: validate the drawer number, look the device up in
the registry, bound the drawer by the device's `drawerCount`, then queue an
`open` command. -/
def openDrawer (reg : List Device) (st : Store) (id : String) (drawerNumber : Int) (now : Int) :
    Store × SvcResult String :=
  if drawerNumber < 1 then (st, .error (.validation "Drawer number must be a positive integer"))
  else
    match findDeviceById reg id with
    | none => (st, .error (.notFound id))
    | some device =>
      if drawerNumber > device.drawerCount then
        (st, .error (.validation "Drawer does not exist on this device"))
      else
        queueCommandForDevice st id { action := "open", drawer := some drawerNumber } now

/-- One mutating service call, as a transition on stores.  The read operations
(`getCommandByCode`, `getNextPendingCommand`, `getCommandsByDevice`,
`getCommandStatistics`) perform no write and so are not transitions. -/
inductive Step : Store → Store → Prop where
  | create (st : Store) (data : CreateCommandDto) (now : Int) :
      Step st (createCommand st data now).1
  | markExecuted (st : Store) (code : String) (now : Int) :
      Step st (markCommandAsExecuted st code now).1
  | markFailed (st : Store) (code : String) (msg : Option String) (now : Int) :
      Step st (markCommandAsFailed st code msg now).1
  | cleanup (st : Store) (days now : Int) :
      Step st (cleanupOldCommands st days now).1

/-- Stores reachable from a fresh deployment by service calls. -/
inductive Reach : Store → Prop where
  | init : Reach emptyStore
  | step {st st' : Store} : Reach st → Step st st' → Reach st'

/-- Status/timestamp discipline of a single command row, after the invariant in
spec section 3. -/
def timesOK (c : Command) : Prop :=
  (c.status = "PENDING" → c.executedAt = none ∧ c.failedAt = none) ∧
  (c.status = "EXECUTED" → c.executedAt ≠ none ∧ c.failedAt = none) ∧
  (c.status = "FAILED" → c.failedAt ≠ none ∧ c.executedAt = none)

/-- Master store invariant: the creation history matches the counter, live codes
are pairwise distinct (the `Command_code_key` unique index) and drawn from the
generator, and every live row obeys the status/timestamp discipline. -/
def Inv (st : Store) : Prop :=
  st.created.map (fun c => c.code) = (List.range st.nextId).map codeOf ∧
  (st.commands.map (fun c => c.code)).Nodup ∧
  (∀ c ∈ st.commands, ∃ k, k < st.nextId ∧ c.code = codeOf k) ∧
  (∀ c ∈ st.commands, timesOK c)


theorem find?_map_code (l : List Command) (t : String) (g : Command → Command)
    (hg : ∀ x, (g x).code = x.code) :
    (l.map (fun x => if x.code == t then g x else x)).find? (fun c => c.code == t)
      = (l.find? (fun c => c.code == t)).map (fun x => if x.code == t then g x else x) := by
  rw [List.find?_map]
  have hcomp : ((fun c => c.code == t) ∘ (fun x : Command => if x.code == t then g x else x))
      = (fun c : Command => c.code == t) := by
    funext x
    by_cases h : x.code == t
    · simp [Function.comp, if_pos h, hg, h]
    · simp [Function.comp, if_neg h, h]
  rw [hcomp]

theorem confirmationCheck_ok_iff (st : Store) (code : String) (c : Command) :
    confirmationCheck st code = .ok c ↔
      jsTrim code ≠ "" ∧ findByCode st (jsTrim code) = some c ∧ c.status = "PENDING" := by
  unfold confirmationCheck
  constructor
  · intro h
    split at h
    · exact absurd h (by simp)
    · rename_i hne
      split at h
      · exact absurd h (by simp)
      · rename_i c' hfind
        split at h
        · exact absurd h (by simp)
        · rename_i hstat
          simp only [SvcResult.ok.injEq] at h
          subst h
          exact ⟨hne, hfind, not_ne_iff.mp hstat⟩
  · rintro ⟨hne, hfind, hstat⟩
    rw [if_neg hne, hfind]
    exact if_neg (not_ne_iff.mpr hstat)

theorem confirmationCheck_invalid (st : Store) (code : String) (c : Command)
    (hne : jsTrim code ≠ "") (hfind : findByCode st (jsTrim code) = some c)
    (hstat : c.status ≠ "PENDING") :
    confirmationCheck st code = .error (.invalidState (jsTrim code) c.status) := by
  unfold confirmationCheck
  rw [if_neg hne, hfind]
  exact if_pos hstat

theorem confirmationCheck_missing (st : Store) (code : String)
    (hne : jsTrim code ≠ "") (hfind : findByCode st (jsTrim code) = none) :
    confirmationCheck st code = .error (.notFound (jsTrim code)) := by
  unfold confirmationCheck
  rw [if_neg hne, hfind]

theorem markExecuted_of_error (st : Store) (code : String) (now : Int) (e : SvcError)
    (hc : confirmationCheck st code = .error e) :
    markCommandAsExecuted st code now = (st, .error e) := by
  unfold markCommandAsExecuted
  rw [hc]

theorem markFailed_of_error (st : Store) (code : String) (msg : Option String) (now : Int) (e : SvcError)
    (hc : confirmationCheck st code = .error e) :
    markCommandAsFailed st code msg now = (st, .error e) := by
  unfold markCommandAsFailed
  rw [hc]

theorem markExecuted_of_check (st : Store) (code : String) (now : Int) (c : Command)
    (hc : confirmationCheck st code = .ok c) :
    markCommandAsExecuted st code now =
      ({ st with commands := st.commands.map (fun x => if x.code == jsTrim code then applyExecuted now x else x) },
       .ok (applyExecuted now c)) := by
  obtain ⟨hne, hfind, hstat⟩ := (confirmationCheck_ok_iff st code c).mp hc
  unfold markCommandAsExecuted markAsExecutedRepo
  rw [hc]
  unfold findByCode at hfind
  rw [hfind]

theorem markFailed_of_check (st : Store) (code : String) (msg : Option String) (now : Int) (c : Command)
    (hc : confirmationCheck st code = .ok c) :
    markCommandAsFailed st code msg now =
      ({ st with commands := st.commands.map (fun x => if x.code == jsTrim code then applyFailed now (msg.map jsTrim) x else x) },
       .ok (applyFailed now (msg.map jsTrim) c)) := by
  obtain ⟨hne, hfind, hstat⟩ := (confirmationCheck_ok_iff st code c).mp hc
  unfold markCommandAsFailed markAsFailedRepo
  rw [hc]
  unfold findByCode at hfind
  rw [hfind]

theorem markExecuted_ok_inv (st st' : Store) (code : String) (now : Int) (c' : Command)
    (h : markCommandAsExecuted st code now = (st', .ok c')) :
    ∃ c, confirmationCheck st code = .ok c ∧ c' = applyExecuted now c ∧
      st' = { st with commands := st.commands.map (fun x => if x.code == jsTrim code then applyExecuted now x else x) } := by
  unfold markCommandAsExecuted at h
  split at h
  · exact absurd h (by simp)
  · rename_i c hc
    refine ⟨c, hc, ?_⟩
    obtain ⟨hne, hfind, hstat⟩ := (confirmationCheck_ok_iff st code c).mp hc
    unfold markAsExecutedRepo at h
    unfold findByCode at hfind
    rw [hfind] at h
    simp only [Prod.mk.injEq, SvcResult.ok.injEq] at h
    exact ⟨h.2.symm, h.1.symm⟩

theorem markFailed_ok_inv (st st' : Store) (code : String) (msg : Option String) (now : Int) (c' : Command)
    (h : markCommandAsFailed st code msg now = (st', .ok c')) :
    ∃ c, confirmationCheck st code = .ok c ∧ c' = applyFailed now (msg.map jsTrim) c ∧
      st' = { st with commands := st.commands.map (fun x => if x.code == jsTrim code then applyFailed now (msg.map jsTrim) x else x) } := by
  unfold markCommandAsFailed at h
  split at h
  · exact absurd h (by simp)
  · rename_i c hc
    refine ⟨c, hc, ?_⟩
    obtain ⟨hne, hfind, hstat⟩ := (confirmationCheck_ok_iff st code c).mp hc
    unfold markAsFailedRepo at h
    unfold findByCode at hfind
    rw [hfind] at h
    simp only [Prod.mk.injEq, SvcResult.ok.injEq] at h
    exact ⟨h.2.symm, h.1.symm⟩

theorem findByCode_after_update (st : Store) (t : String) (g : Command → Command)
    (hg : ∀ x, (g x).code = x.code) (c : Command)
    (hfind : findByCode st t = some c) :
    findByCode { st with commands := st.commands.map (fun x => if x.code == t then g x else x) } t
      = some (g c) := by
  unfold findByCode at hfind ⊢
  simp only [find?_map_code st.commands t g hg, hfind, Option.map_some']
  have hp := List.find?_some hfind
  simp only at hp
  rw [if_pos hp]

/-- C1: for every command and every pair of confirmation calls on its code
(MarkExecuted then MarkFailed, vice versa, or the same call twice) exactly one
call succeeds: the first transitions the command out of `PENDING` and stamps the
matching timestamp, and the second fails with `InvalidStateError`, leaving the
store - hence the command's status and timestamps - exactly as the first
transition left them; with a code no command holds, both fail with `NotFoundError`. -/
theorem c1_single_terminal_transition (st : Store) (code : String)
    (msg msg' : Option String) (now1 now2 : Int) (hcode : jsTrim code ≠ "") :
    (findByCode st (jsTrim code) = none →
      markCommandAsExecuted st code now1 = (st, .error (.notFound (jsTrim code))) ∧
      markCommandAsFailed st code msg now1 = (st, .error (.notFound (jsTrim code)))) ∧
    (∀ st' c', markCommandAsExecuted st code now1 = (st', .ok c') →
      c'.status = "EXECUTED" ∧ c'.executedAt = some now1 ∧
      findByCode st' (jsTrim code) = some c' ∧
      markCommandAsExecuted st' code now2 = (st', .error (.invalidState (jsTrim code) "EXECUTED")) ∧
      markCommandAsFailed st' code msg' now2 = (st', .error (.invalidState (jsTrim code) "EXECUTED"))) ∧
    (∀ st' c', markCommandAsFailed st code msg now1 = (st', .ok c') →
      c'.status = "FAILED" ∧ c'.failedAt = some now1 ∧
      findByCode st' (jsTrim code) = some c' ∧
      markCommandAsExecuted st' code now2 = (st', .error (.invalidState (jsTrim code) "FAILED")) ∧
      markCommandAsFailed st' code msg' now2 = (st', .error (.invalidState (jsTrim code) "FAILED"))) := by
  refine ⟨?_, ?_, ?_⟩
  · intro hnone
    have hc := confirmationCheck_missing st code hcode hnone
    exact ⟨markExecuted_of_error st code now1 _ hc, markFailed_of_error st code msg now1 _ hc⟩
  · intro st' c' h
    obtain ⟨c, hc, hc', hst'⟩ := markExecuted_ok_inv st st' code now1 c' h
    obtain ⟨hne, hfind, hstat⟩ := (confirmationCheck_ok_iff st code c).mp hc
    have hfind' : findByCode st' (jsTrim code) = some c' := by
      rw [hst', hc']
      exact findByCode_after_update st (jsTrim code) (applyExecuted now1) (fun x => rfl) c hfind
    have hstat' : c'.status = "EXECUTED" := by rw [hc']; rfl
    have hinv := confirmationCheck_invalid st' code c' hne hfind'
      (by rw [hstat']; decide)
    rw [hstat'] at hinv
    refine ⟨hstat', by rw [hc']; rfl, hfind', ?_, ?_⟩
    · exact markExecuted_of_error st' code now2 _ hinv
    · exact markFailed_of_error st' code msg' now2 _ hinv
  · intro st' c' h
    obtain ⟨c, hc, hc', hst'⟩ := markFailed_ok_inv st st' code msg now1 c' h
    obtain ⟨hne, hfind, hstat⟩ := (confirmationCheck_ok_iff st code c).mp hc
    have hfind' : findByCode st' (jsTrim code) = some c' := by
      rw [hst', hc']
      exact findByCode_after_update st (jsTrim code) (applyFailed now1 (msg.map jsTrim)) (fun x => rfl) c hfind
    have hstat' : c'.status = "FAILED" := by rw [hc']; rfl
    have hinv := confirmationCheck_invalid st' code c' hne hfind'
      (by rw [hstat']; decide)
    rw [hstat'] at hinv
    refine ⟨hstat', by rw [hc']; rfl, hfind', ?_, ?_⟩
    · exact markExecuted_of_error st' code now2 _ hinv
    · exact markFailed_of_error st' code msg' now2 _ hinv

def c1cmd : Command :=
  { id := "i0", deviceId := "D1", code := "AAA", action := "OPEN", drawer := some 1,
    status := "PENDING", createdAt := 0, executedAt := none, failedAt := none, errorMessage := none }

def c1store : Store := { commands := [c1cmd], nextId := 0, created := [] }

theorem c1_witness :
    jsTrim "AAA" ≠ "" ∧
    (∀ st' c', markCommandAsExecuted c1store "AAA" 5 = (st', .ok c') →
      c'.status = "EXECUTED" ∧ c'.executedAt = some (5 : Int) ∧
      findByCode st' (jsTrim "AAA") = some c' ∧
      markCommandAsExecuted st' "AAA" 6 = (st', .error (.invalidState (jsTrim "AAA") "EXECUTED")) ∧
      markCommandAsFailed st' "AAA" (some "oops") 6 = (st', .error (.invalidState (jsTrim "AAA") "EXECUTED"))) ∧
    markCommandAsExecuted c1store "AAA" 5 = ({ commands := [applyExecuted 5 c1cmd], nextId := 0, created := [] }, .ok (applyExecuted 5 c1cmd)) :=
  ⟨by decide,
   (c1_single_terminal_transition c1store "AAA" none (some "oops") 5 6 (by decide)).2.1,
   by decide⟩



theorem minByCreatedAt_eq_none_iff (l : List Command) : minByCreatedAt l = none ↔ l = [] := by
  cases l with
  | nil => simp [minByCreatedAt]
  | cons c rest =>
    simp only [minByCreatedAt]
    constructor
    · intro h
      split at h
      · simp at h
      · split at h <;> simp at h
    · intro h
      exact absurd h (by simp)

theorem minByCreatedAt_mem (l : List Command) (c : Command)
    (h : minByCreatedAt l = some c) : c ∈ l := by
  induction l generalizing c with
  | nil => simp [minByCreatedAt] at h
  | cons a rest ih =>
    simp only [minByCreatedAt] at h
    split at h
    · simp only [Option.some.injEq] at h
      subst h
      exact List.mem_cons_self a rest
    · rename_i b hb
      split at h <;> simp only [Option.some.injEq] at h <;> subst h
      · exact List.mem_cons_self a rest
      · exact List.mem_cons_of_mem a (ih b hb)

theorem minByCreatedAt_min (l : List Command) (c : Command)
    (h : minByCreatedAt l = some c) : ∀ b ∈ l, c.createdAt ≤ b.createdAt := by
  induction l generalizing c with
  | nil => simp [minByCreatedAt] at h
  | cons a rest ih =>
    simp only [minByCreatedAt] at h
    intro b hb
    rcases List.mem_cons.mp hb with hb | hb
    · subst hb
      split at h
      · simp only [Option.some.injEq] at h; subst h; exact le_refl _
      · rename_i m hm
        split at h <;> simp only [Option.some.injEq] at h <;> subst h
        · exact le_refl _
        · rename_i hlt
          exact le_of_lt (lt_of_le_of_lt (ih m hm m (minByCreatedAt_mem rest m hm)) (by omega))
    · split at h
      · rename_i hnone
        rw [minByCreatedAt_eq_none_iff] at hnone
        subst hnone
        simp at hb
      · rename_i m hm
        split at h <;> simp only [Option.some.injEq] at h <;> subst h
        · rename_i hle
          exact le_trans hle (ih m hm b hb)
        · exact ih m hm b hb

/-- C3: for every device, `getNextPendingCommand` returns (without error, and
without touching the store: it is a function of the store alone and yields no
new store) the `PENDING` command of that device with the smallest `createdAt`,
and an empty result exactly when the device has no `PENDING` command. -/
theorem c3_next_pending_oldest (st : Store) (deviceId : String)
    (hd : jsTrim deviceId ≠ "") :
    ∃ r, getNextPendingCommand st deviceId = .ok r ∧
      (r = none ↔ ∀ c ∈ st.commands, ¬(c.deviceId = jsTrim deviceId ∧ c.status = "PENDING")) ∧
      (∀ c, r = some c → c ∈ st.commands ∧ c.deviceId = jsTrim deviceId ∧ c.status = "PENDING" ∧
        ∀ b ∈ st.commands, b.deviceId = jsTrim deviceId → b.status = "PENDING" →
          c.createdAt ≤ b.createdAt) := by
  refine ⟨findNextPendingRepo st (jsTrim deviceId), ?_, ?_, ?_⟩
  · unfold getNextPendingCommand
    rw [if_neg hd]
  · unfold findNextPendingRepo
    rw [minByCreatedAt_eq_none_iff, List.filter_eq_nil_iff]
    constructor
    · intro h c hc hcp
      exact h c hc (by simp [hcp.1, hcp.2])
    · intro h c hc
      simp only [Bool.and_eq_true, beq_iff_eq, not_and]
      intro h1 h2
      exact h c hc ⟨h1, h2⟩
  · intro c hc
    unfold findNextPendingRepo at hc
    have hmem := minByCreatedAt_mem _ c hc
    have hflt := List.of_mem_filter hmem
    simp only [Bool.and_eq_true, beq_iff_eq] at hflt
    refine ⟨List.mem_of_mem_filter hmem, hflt.1, hflt.2, ?_⟩
    intro b hb hbdev hbst
    exact minByCreatedAt_min _ c hc b (List.mem_filter.mpr ⟨hb, by simp [hbdev, hbst]⟩)

def c3cmdA : Command :=
  { id := "iA", deviceId := "D1", code := "AAA", action := "OPEN", drawer := some 1,
    status := "PENDING", createdAt := 3, executedAt := none, failedAt := none, errorMessage := none }

def c3cmdB : Command :=
  { id := "iB", deviceId := "D1", code := "BBB", action := "CLOSE", drawer := none,
    status := "PENDING", createdAt := 1, executedAt := none, failedAt := none, errorMessage := none }

def c3store : Store := { commands := [c3cmdA, c3cmdB], nextId := 0, created := [] }

/-- Witness for C3 on a concrete two-command store: the older pending command wins. -/
theorem c3_witness :
    jsTrim "D1" ≠ "" ∧
    (∃ r, getNextPendingCommand c3store "D1" = .ok r ∧
      (r = none ↔ ∀ c ∈ c3store.commands, ¬(c.deviceId = jsTrim "D1" ∧ c.status = "PENDING")) ∧
      (∀ c, r = some c → c ∈ c3store.commands ∧ c.deviceId = jsTrim "D1" ∧ c.status = "PENDING" ∧
        ∀ b ∈ c3store.commands, b.deviceId = jsTrim "D1" → b.status = "PENDING" →
          c.createdAt ≤ b.createdAt)) ∧
    getNextPendingCommand c3store "D1" = .ok (some c3cmdB) :=
  ⟨by decide, c3_next_pending_oldest c3store "D1" (by decide), by decide⟩



/-- C6: for every day count of at least 1, cleanup deletes exactly the
commands in a terminal state older than the cutoff `now - days` and reports
their count; `PENDING` commands survive regardless of age and terminal commands
at or after the cutoff are untouched. -/
theorem c6_cleanup_safety (st : Store) (days now : Int) (hd : 1 ≤ days) :
    cleanupOldCommands st days now =
      ({ st with commands := st.commands.filter (fun c => !(isOldTerminal (now - days) c)) },
       .ok (st.commands.filter (fun c => isOldTerminal (now - days) c)).length) ∧
    (∀ c ∈ st.commands, c.status = "PENDING" →
      c ∈ (cleanupOldCommands st days now).1.commands) ∧
    (∀ c ∈ st.commands, (c.status = "EXECUTED" ∨ c.status = "FAILED") → now - days ≤ c.createdAt →
      c ∈ (cleanupOldCommands st days now).1.commands) ∧
    (∀ c ∈ st.commands, (c.status = "EXECUTED" ∨ c.status = "FAILED") → c.createdAt < now - days →
      c ∉ (cleanupOldCommands st days now).1.commands) ∧
    (∀ c, c ∈ (cleanupOldCommands st days now).1.commands ↔
      c ∈ st.commands ∧ ¬(c.createdAt < now - days ∧ (c.status = "EXECUTED" ∨ c.status = "FAILED"))) := by
  have hlt : ¬(days < 1) := by omega
  have heq : cleanupOldCommands st days now =
      ({ st with commands := st.commands.filter (fun c => !(isOldTerminal (now - days) c)) },
       .ok (st.commands.filter (fun c => isOldTerminal (now - days) c)).length) := by
    unfold cleanupOldCommands deleteOldRepo
    rw [if_neg hlt]
  have hmem : ∀ c, c ∈ (cleanupOldCommands st days now).1.commands ↔
      c ∈ st.commands ∧ ¬(c.createdAt < now - days ∧ (c.status = "EXECUTED" ∨ c.status = "FAILED")) := by
    intro c
    rw [heq]
    simp only [List.mem_filter, Bool.not_eq_true']
    constructor
    · rintro ⟨hc, hf⟩
      refine ⟨hc, ?_⟩
      simp only [isOldTerminal, Bool.and_eq_false_iff, decide_eq_false_iff_not,
        Bool.or_eq_false_iff, beq_eq_false_iff_ne] at hf
      rcases hf with hf | hf
      · exact fun hx => hf hx.1
      · exact fun hx => by rcases hx.2 with h2 | h2
                           · exact hf.1 h2
                           · exact hf.2 h2
    · rintro ⟨hc, hn⟩
      refine ⟨hc, ?_⟩
      simp only [isOldTerminal, Bool.and_eq_false_iff, decide_eq_false_iff_not,
        Bool.or_eq_false_iff, beq_eq_false_iff_ne]
      by_cases hold : c.createdAt < now - days
      · right
        constructor
        · intro h1; exact hn ⟨hold, Or.inl h1⟩
        · intro h2; exact hn ⟨hold, Or.inr h2⟩
      · exact Or.inl hold
  refine ⟨heq, ?_, ?_, ?_, hmem⟩
  · intro c hc hst
    exact (hmem c).mpr ⟨hc, fun hx => by rcases hx.2 with h | h <;> simp [hst] at h⟩
  · intro c hc _ hnew
    exact (hmem c).mpr ⟨hc, fun hx => by omega⟩
  · intro c hc hterm hold hmem'
    exact ((hmem c).mp hmem').2 ⟨hold, hterm⟩

/-- C7: marking a `PENDING` command as failed sets status `FAILED`, stamps
`failedAt`, and stores the trimmed caller message when one is given, or the
non-empty generic default when the message is omitted. -/
theorem c7_mark_failed_semantics (st : Store) (code : String) (msg : Option String)
    (now : Int) (c : Command)
    (hne : jsTrim code ≠ "") (hfind : findByCode st (jsTrim code) = some c)
    (hstat : c.status = "PENDING") :
    ∃ st', markCommandAsFailed st code msg now = (st', .ok (applyFailed now (msg.map jsTrim) c)) ∧
      findByCode st' (jsTrim code) = some (applyFailed now (msg.map jsTrim) c) ∧
      (applyFailed now (msg.map jsTrim) c).status = "FAILED" ∧
      (applyFailed now (msg.map jsTrim) c).failedAt = some now ∧
      (applyFailed now (msg.map jsTrim) c).errorMessage = some (jsOrDefault (msg.map jsTrim)) ∧
      (msg = none → jsOrDefault (msg.map jsTrim) = defaultErrorMessage) ∧
      (∀ m, msg = some m → jsTrim m ≠ "" → jsOrDefault (msg.map jsTrim) = jsTrim m) ∧
      defaultErrorMessage ≠ "" := by
  have hc : confirmationCheck st code = .ok c :=
    (confirmationCheck_ok_iff st code c).mpr ⟨hne, hfind, hstat⟩
  refine ⟨_, markFailed_of_check st code msg now c hc, ?_, rfl, rfl, rfl, ?_, ?_, by decide⟩
  · exact findByCode_after_update st (jsTrim code) (applyFailed now (msg.map jsTrim))
      (fun x => rfl) c hfind
  · intro h; subst h; rfl
  · intro m hm hme
    subst hm
    simp only [Option.map_some', jsOrDefault, if_neg hme]

/-- The three status-restricted counts of a filter partition its total count. -/
theorem count_status_partition (l : List Command) (p : Command → Bool)
    (h : ∀ c ∈ l, c.status = "PENDING" ∨ c.status = "EXECUTED" ∨ c.status = "FAILED") :
    (l.filter (fun c => p c && (c.status == "PENDING"))).length +
    (l.filter (fun c => p c && (c.status == "EXECUTED"))).length +
    (l.filter (fun c => p c && (c.status == "FAILED"))).length =
    (l.filter (fun c => p c)).length := by
  induction l with
  | nil => rfl
  | cons c l ih =>
    have hl : ∀ x ∈ l, x.status = "PENDING" ∨ x.status = "EXECUTED" ∨ x.status = "FAILED" :=
      fun x hx => h x (List.mem_cons_of_mem c hx)
    have ih' := ih hl
    by_cases hp : p c
    · rcases h c (List.mem_cons_self c l) with hs | hs | hs <;>
        (simp [List.filter_cons, hp, hs]; omega)
    · simp [List.filter_cons, hp]
      exact ih'

/-- C9: when every stored command has one of the three statuses, the statistics
satisfy pending + executed + failed = total, for any optional device filter. -/
theorem c9_stats_sum (st : Store) (deviceId : Option String)
    (h : ∀ c ∈ st.commands, c.status = "PENDING" ∨ c.status = "EXECUTED" ∨ c.status = "FAILED") :
    (getCommandStatistics st deviceId).pending + (getCommandStatistics st deviceId).executed +
      (getCommandStatistics st deviceId).failed = (getCommandStatistics st deviceId).total := by
  unfold getCommandStatistics countRepo
  simp only
  have := count_status_partition st.commands
    (fun c => match deviceId with
      | some d => if d = "" then true else c.deviceId == d
      | none => true) h
  simp only at this
  convert this using 2
  simp [List.filter_congr]


def c6oldExec : Command :=
  { id := "iE", deviceId := "D1", code := "AAA", action := "OPEN", drawer := some 1,
    status := "EXECUTED", createdAt := 0, executedAt := some 1, failedAt := none, errorMessage := none }

def c6newFail : Command :=
  { id := "iF", deviceId := "D1", code := "BBB", action := "CLOSE", drawer := none,
    status := "FAILED", createdAt := 50, executedAt := none, failedAt := some 51,
    errorMessage := some "jam" }

def c6pend : Command :=
  { id := "iP", deviceId := "D2", code := "CCC", action := "LOCK", drawer := none,
    status := "PENDING", createdAt := -100, executedAt := none, failedAt := none, errorMessage := none }

def c6store : Store := { commands := [c6oldExec, c6newFail, c6pend], nextId := 0, created := [] }

/-- Witness for C6: a 30-day cleanup at time 60 removes the old executed
command and keeps the newer failed one and an ancient pending one. -/
theorem c6_witness :
    (1 : Int) ≤ 30 ∧
    cleanupOldCommands c6store 30 60 =
      ({ c6store with commands := [c6newFail, c6pend] }, .ok 1) ∧
    c6pend ∈ (cleanupOldCommands c6store 30 60).1.commands ∧
    c6newFail ∈ (cleanupOldCommands c6store 30 60).1.commands ∧
    c6oldExec ∉ (cleanupOldCommands c6store 30 60).1.commands :=
  ⟨by decide, by decide,
   (c6_cleanup_safety c6store 30 60 (by decide)).2.1 c6pend (by decide) (by decide),
   (c6_cleanup_safety c6store 30 60 (by decide)).2.2.1 c6newFail (by decide) (by decide) (by decide),
   (c6_cleanup_safety c6store 30 60 (by decide)).2.2.2.1 c6oldExec (by decide) (by decide) (by decide)⟩

def c7cmd : Command :=
  { id := "i0", deviceId := "D1", code := "AAA", action := "OPEN", drawer := some 1,
    status := "PENDING", createdAt := 0, executedAt := none, failedAt := none, errorMessage := none }

def c7store : Store := { commands := [c7cmd], nextId := 0, created := [] }

/-- Witness for C7: failing a pending command with no message stores the
generic default text. -/
theorem c7_witness :
    (∃ st', markCommandAsFailed c7store "AAA" none 7 =
        (st', .ok (applyFailed 7 (Option.map jsTrim none) c7cmd)) ∧
      findByCode st' (jsTrim "AAA") = some (applyFailed 7 (Option.map jsTrim none) c7cmd) ∧
      (applyFailed 7 (Option.map jsTrim none) c7cmd).status = "FAILED" ∧
      (applyFailed 7 (Option.map jsTrim none) c7cmd).failedAt = some (7 : Int) ∧
      (applyFailed 7 (Option.map jsTrim none) c7cmd).errorMessage =
        some (jsOrDefault (Option.map jsTrim none)) ∧
      ((none : Option String) = none → jsOrDefault (Option.map jsTrim none) = defaultErrorMessage) ∧
      (∀ m, (none : Option String) = some m → jsTrim m ≠ "" →
        jsOrDefault (Option.map jsTrim none) = jsTrim m) ∧
      defaultErrorMessage ≠ "") ∧
    (markCommandAsFailed c7store "AAA" none 7).2 =
      SvcResult.ok { c7cmd with status := "FAILED", failedAt := some 7, errorMessage := some "Command execution failed" } :=
  ⟨c7_mark_failed_semantics c7store "AAA" none 7 c7cmd (by decide) (by decide) rfl, by decide⟩

def c9cmd1 : Command :=
  { id := "i1", deviceId := "D1", code := "AAA", action := "OPEN", drawer := some 1,
    status := "PENDING", createdAt := 0, executedAt := none, failedAt := none, errorMessage := none }

def c9cmd2 : Command :=
  { id := "i2", deviceId := "D1", code := "BBB", action := "CLOSE", drawer := none,
    status := "EXECUTED", createdAt := 1, executedAt := some 2, failedAt := none, errorMessage := none }

def c9cmd3 : Command :=
  { id := "i3", deviceId := "D2", code := "CCC", action := "LOCK", drawer := none,
    status := "FAILED", createdAt := 2, executedAt := none, failedAt := some 3,
    errorMessage := some "jam" }

def c9store : Store := { commands := [c9cmd1, c9cmd2, c9cmd3], nextId := 0, created := [] }

/-- Witness for C9 on a three-command store filtered to device D1. -/
theorem c9_witness :
    (∀ c ∈ c9store.commands,
      c.status = "PENDING" ∨ c.status = "EXECUTED" ∨ c.status = "FAILED") ∧
    (getCommandStatistics c9store (some "D1")).pending +
      (getCommandStatistics c9store (some "D1")).executed +
      (getCommandStatistics c9store (some "D1")).failed =
      (getCommandStatistics c9store (some "D1")).total ∧
    getCommandStatistics c9store (some "D1") =
      { pending := 1, executed := 1, failed := 0, total := 2 } :=
  ⟨by decide, c9_stats_sum c9store (some "D1") (by decide), by decide⟩




/-- Uppercasing fixes whitespace characters. -/
theorem ws_toUpper_eq_self (c : Char) (h : c.isWhitespace = true) : c.toUpper = c := by
  simp only [Char.isWhitespace, Bool.or_eq_true, decide_eq_true_eq] at h
  rcases h with ((h | h) | h) | h
  all_goals subst h
  all_goals decide

/-- A string trimming to empty consists of whitespace only. -/
theorem jsTrim_empty_all_ws (s : String) (h : jsTrim s = "") :
    ∀ c ∈ s.data, c.isWhitespace = true := by
  unfold jsTrim at h
  have hdata : ((s.data.dropWhile Char.isWhitespace).reverse.dropWhile Char.isWhitespace).reverse = [] :=
    congrArg String.data h
  rw [List.reverse_eq_nil_iff, List.dropWhile_eq_nil_iff] at hdata
  have hdrop : ∀ x ∈ s.data.dropWhile Char.isWhitespace, x.isWhitespace = true := by
    intro x hx
    exact hdata x (List.mem_reverse.mpr hx)
  intro c hc
  rw [← List.takeWhile_append_dropWhile Char.isWhitespace s.data] at hc
  rcases List.mem_append.mp hc with hc | hc
  · exact List.mem_takeWhile_imp hc
  · exact hdrop c hc

/-- No whitespace-only string uppercases into the recognized action set. -/
theorem allws_toUpper_notMem (s : String) (h : ∀ c ∈ s.data, c.isWhitespace = true) :
    jsToUpper s ∉ validActions := by
  intro hmem
  cases hs : s.data with
  | nil =>
    have hempty : jsToUpper s = "" := by
      unfold jsToUpper
      rw [hs]
      rfl
    rw [hempty] at hmem
    simp [validActions] at hmem
  | cons c cs =>
    have hws := h c (by rw [hs]; exact List.mem_cons_self c cs)
    have hcup := ws_toUpper_eq_self c hws
    have hhead : (jsToUpper s).data = c :: cs.map Char.toUpper := by
      unfold jsToUpper
      rw [hs]
      simp [hcup]
    simp only [validActions, List.mem_cons, List.not_mem_nil, or_false] at hmem
    rcases hmem with he | he | he | he
    all_goals rw [he] at hhead
    all_goals
      have hinj := (List.cons.injEq _ _ _ _).mp hhead.symm
    all_goals exact absurd (hinj.1 ▸ hws) (by decide)

/-- An action whose uppercase form is recognized does not trim to empty. -/
theorem mem_validActions_trim_ne (s : String) (h : jsToUpper s ∈ validActions) :
    jsTrim s ≠ "" := by
  intro hempty
  exact allws_toUpper_notMem s (jsTrim_empty_all_ws s hempty) h

/-- The row written by a successful creation. -/
def createdCommand (st : Store) (data : CreateCommandDto) (now : Int) : Command :=
  { id := idOf st.nextId
    deviceId := jsTrim data.deviceId
    code := codeOf st.nextId
    action := jsToUpper data.action
    drawer := jsOrNull data.drawer
    status := "PENDING"
    createdAt := now
    executedAt := none
    failedAt := none
    errorMessage := none }

/-- Successful path of CommandsService.createCommand. -/
theorem createCommand_ok (st : Store) (data : CreateCommandDto) (now : Int)
    (h1 : jsTrim data.deviceId ≠ "") (h2 : jsTrim data.action ≠ "")
    (h3 : jsToUpper data.action ∈ validActions) (h4 : drawerOutOfRange data.drawer = false) :
    createCommand st data now =
      ({ commands := st.commands ++ [createdCommand st data now], nextId := st.nextId + 1,
         created := st.created ++ [createdCommand st data now] },
       .ok (createdCommand st data now)) := by
  unfold createCommand
  rw [if_neg h1, if_neg h2, if_neg (not_not_intro h3)]
  rw [if_neg (by rw [h4]; exact Bool.false_ne_true)]
  rfl

/-- Inversion of a successful creation: all validations passed and the new row
and store have the creation shape. -/
theorem createCommand_ok_inv (st st' : Store) (data : CreateCommandDto) (now : Int) (c : Command)
    (h : createCommand st data now = (st', .ok c)) :
    jsTrim data.deviceId ≠ "" ∧ jsTrim data.action ≠ "" ∧
    jsToUpper data.action ∈ validActions ∧ drawerOutOfRange data.drawer = false ∧
    c = createdCommand st data now ∧
    st' = { commands := st.commands ++ [c], nextId := st.nextId + 1,
            created := st.created ++ [c] } := by
  unfold createCommand at h
  split at h
  · exact absurd (congrArg Prod.snd h) (by simp)
  · rename_i h1
    split at h
    · exact absurd (congrArg Prod.snd h) (by simp)
    · rename_i h2
      split at h
      · exact absurd (congrArg Prod.snd h) (by simp)
      · rename_i h3
        split at h
        · exact absurd (congrArg Prod.snd h) (by simp)
        · rename_i h4
          rw [not_not] at h3
          unfold createRepo at h
          simp only [Prod.mk.injEq, SvcResult.ok.injEq] at h
          refine ⟨h1, h2, h3, Bool.not_eq_true _ ▸ Bool.of_not_eq_true h4, h.2.symm, ?_⟩
          rw [← h.1, ← h.2]

/-- C10: with a valid deviceId and drawer, creation succeeds exactly when the
uppercased action is one of OPEN, CLOSE, UNLOCK, LOCK, and the stored row holds
the uppercased action and the trimmed deviceId. -/
theorem c10_action_normalization (st : Store) (data : CreateCommandDto) (now : Int)
    (hdev : jsTrim data.deviceId ≠ "") (hdrawer : drawerOutOfRange data.drawer = false) :
    ((∃ st' c, createCommand st data now = (st', .ok c)) ↔ jsToUpper data.action ∈ validActions) ∧
    (∀ st' c, createCommand st data now = (st', .ok c) →
      c.action = jsToUpper data.action ∧ c.deviceId = jsTrim data.deviceId ∧
      c.status = "PENDING") := by
  constructor
  · constructor
    · rintro ⟨st', c, h⟩
      exact (createCommand_ok_inv st st' data now c h).2.2.1
    · intro hmem
      refine ⟨_, _, createCommand_ok st data now hdev (mem_validActions_trim_ne data.action hmem) hmem hdrawer⟩
  · intro st' c h
    have hinv := createCommand_ok_inv st st' data now c h
    rw [hinv.2.2.2.2.1]
    exact ⟨rfl, rfl, rfl⟩

/-- Witness for C10: mixed-case "oPeN" is accepted and stored as "OPEN";
an unrecognized action is rejected. -/
theorem c10_witness :
    jsTrim "D1" ≠ "" ∧ drawerOutOfRange (some 2) = false ∧
    ((∃ st' c, createCommand emptyStore { deviceId := "D1", action := "oPeN", drawer := some 2 } 0
        = (st', .ok c)) ↔
      jsToUpper "oPeN" ∈ validActions) ∧
    (createCommand emptyStore { deviceId := "D1", action := "oPeN", drawer := some 2 } 0).2 =
      .ok (createdCommand emptyStore { deviceId := "D1", action := "oPeN", drawer := some 2 } 0) ∧
    (createdCommand emptyStore { deviceId := "D1", action := "oPeN", drawer := some 2 } 0).action
      = "OPEN" ∧
    (createCommand emptyStore { deviceId := "D1", action := "lie", drawer := some 2 } 0).2 =
      .error (.validation "Invalid action. Must be one of: OPEN, CLOSE, UNLOCK, LOCK") :=
  ⟨by decide, by decide,
   (c10_action_normalization emptyStore { deviceId := "D1", action := "oPeN", drawer := some 2 } 0
     (by decide) (by decide)).1,
   by decide, by decide, by decide⟩



/-- C5: command creation validates deviceId non-empty and the action in the
recognized set and the drawer in range, and the openDrawer entry point bounds
the drawer by the device's registry-supplied drawerCount at creation time;
each violation yields a validation error, and a successful openDrawer implies
the drawer number was positive and within the registry bound. -/
theorem c5_create_validation (reg : List Device) (st : Store) (id : String)
    (data : CreateCommandDto) (dn : Int) (now : Int) :
    (jsTrim data.deviceId = "" →
      createCommand st data now = (st, .error (.validation "Device ID is required"))) ∧
    (jsTrim data.deviceId ≠ "" → jsToUpper data.action ∉ validActions →
      ∃ m, createCommand st data now = (st, .error (.validation m))) ∧
    (jsTrim data.deviceId ≠ "" → jsToUpper data.action ∈ validActions →
      drawerOutOfRange data.drawer = true →
      createCommand st data now =
        (st, .error (.validation "Drawer must be an integer between 1 and 10"))) ∧
    (dn < 1 → openDrawer reg st id dn now =
      (st, .error (.validation "Drawer number must be a positive integer"))) ∧
    (∀ dev, 1 ≤ dn → findDeviceById reg id = some dev → dev.drawerCount < dn →
      openDrawer reg st id dn now =
        (st, .error (.validation "Drawer does not exist on this device"))) ∧
    (∀ st' codeStr, openDrawer reg st id dn now = (st', .ok codeStr) →
      1 ≤ dn ∧ ∃ dev, findDeviceById reg id = some dev ∧ dn ≤ dev.drawerCount) := by
  refine ⟨?_, ?_, ?_, ?_, ?_, ?_⟩
  · intro h
    unfold createCommand
    rw [if_pos h]
  · intro h1 h2
    unfold createCommand
    rw [if_neg h1]
    by_cases h3 : jsTrim data.action = ""
    · exact ⟨"Action is required", by rw [if_pos h3]⟩
    · exact ⟨"Invalid action. Must be one of: OPEN, CLOSE, UNLOCK, LOCK",
        by rw [if_neg h3, if_pos h2]⟩
  · intro h1 h2 h3
    unfold createCommand
    rw [if_neg h1, if_neg (mem_validActions_trim_ne data.action h2),
      if_neg (not_not_intro h2), if_pos h3]
  · intro h
    unfold openDrawer
    rw [if_pos h]
  · intro dev h1 hfind h2
    unfold openDrawer
    rw [if_neg (by omega), hfind]
    exact if_pos (by omega)
  · intro st' codeStr h
    unfold openDrawer at h
    split at h
    · exact absurd (congrArg Prod.snd h) (by simp)
    · split at h
      · exact absurd (congrArg Prod.snd h) (by simp)
      · rename_i hlt dev hfind
        split at h
        · exact absurd (congrArg Prod.snd h) (by simp)
        · rename_i hbound
          exact ⟨by omega, dev, hfind, by omega⟩

def c5dev : Device := { id := "D1", name := "kiosk", status := "ACTIVE", drawerCount := 4 }

/-- Witness for C5 on a registry with one 4-drawer device: the four violation
kinds are rejected and drawer 2 is accepted. -/
theorem c5_witness :
    (createCommand emptyStore { deviceId := "  ", action := "OPEN", drawer := none } 0
      = (emptyStore, .error (.validation "Device ID is required"))) ∧
    (∃ m, createCommand emptyStore { deviceId := "D1", action := "EAT", drawer := none } 0
      = (emptyStore, .error (.validation m))) ∧
    (createCommand emptyStore { deviceId := "D1", action := "OPEN", drawer := some 11 } 0
      = (emptyStore, .error (.validation "Drawer must be an integer between 1 and 10"))) ∧
    (openDrawer [c5dev] emptyStore "D1" 0 0
      = (emptyStore, .error (.validation "Drawer number must be a positive integer"))) ∧
    (openDrawer [c5dev] emptyStore "D1" 5 0
      = (emptyStore, .error (.validation "Drawer does not exist on this device"))) ∧
    (∀ st' codeStr, openDrawer [c5dev] emptyStore "D1" 2 0 = (st', .ok codeStr) →
      (1 : Int) ≤ 2 ∧ ∃ dev, findDeviceById [c5dev] "D1" = some dev ∧ 2 ≤ dev.drawerCount) ∧
    (openDrawer [c5dev] emptyStore "D1" 2 0).2 = .ok (codeOf 0) :=
  ⟨(c5_create_validation [c5dev] emptyStore "D1"
      { deviceId := "  ", action := "OPEN", drawer := none } 2 0).1 (by decide),
   (c5_create_validation [c5dev] emptyStore "D1"
      { deviceId := "D1", action := "EAT", drawer := none } 2 0).2.1 (by decide) (by decide),
   (c5_create_validation [c5dev] emptyStore "D1"
      { deviceId := "D1", action := "OPEN", drawer := some 11 } 2 0).2.2.1
      (by decide) (by decide) (by decide),
   (c5_create_validation [c5dev] emptyStore "D1"
      { deviceId := "D1", action := "OPEN", drawer := none } 0 0).2.2.2.1 (by decide),
   (c5_create_validation [c5dev] emptyStore "D1"
      { deviceId := "D1", action := "OPEN", drawer := none } 5 0).2.2.2.2.1 c5dev
      (by decide) (by decide) (by decide),
   (c5_create_validation [c5dev] emptyStore "D1"
      { deviceId := "D1", action := "OPEN", drawer := none } 2 0).2.2.2.2.2,
   by decide⟩



/-- Distinct counter values give distinct codes. -/
theorem codeOf_injective : Function.Injective codeOf := by
  intro m n h
  have hlen := congrArg (fun s : String => s.data.length) h
  simp only [codeOf, List.length_cons, List.length_replicate] at hlen
  omega

/-- The store after a creation call: unchanged on a validation error, extended
by the new row on success. -/
theorem createCommand_fst (st : Store) (data : CreateCommandDto) (now : Int) :
    (createCommand st data now).1 = st ∨
    (createCommand st data now).1 =
      { commands := st.commands ++ [createdCommand st data now], nextId := st.nextId + 1,
        created := st.created ++ [createdCommand st data now] } := by
  unfold createCommand
  split
  · exact Or.inl rfl
  · split
    · exact Or.inl rfl
    · split
      · exact Or.inl rfl
      · split
        · exact Or.inl rfl
        · exact Or.inr rfl

/-- The store after markCommandAsExecuted: unchanged on an error, the matched
row overwritten on success. -/
theorem markExecuted_fst (st : Store) (code : String) (now : Int) :
    (markCommandAsExecuted st code now).1 = st ∨
    ∃ c, confirmationCheck st code = .ok c ∧
      (markCommandAsExecuted st code now).1 =
        { st with commands := st.commands.map (fun x => if x.code == jsTrim code then applyExecuted now x else x) } := by
  unfold markCommandAsExecuted
  split
  · exact Or.inl rfl
  · rename_i c hc
    refine Or.inr ⟨c, hc, ?_⟩
    obtain ⟨hne, hfind, hstat⟩ := (confirmationCheck_ok_iff st code c).mp hc
    unfold markAsExecutedRepo
    unfold findByCode at hfind
    rw [hfind]

/-- The store after markCommandAsFailed: unchanged on an error, the matched
row overwritten on success. -/
theorem markFailed_fst (st : Store) (code : String) (msg : Option String) (now : Int) :
    (markCommandAsFailed st code msg now).1 = st ∨
    ∃ c, confirmationCheck st code = .ok c ∧
      (markCommandAsFailed st code msg now).1 =
        { st with commands := st.commands.map (fun x => if x.code == jsTrim code then applyFailed now (msg.map jsTrim) x else x) } := by
  unfold markCommandAsFailed
  split
  · exact Or.inl rfl
  · rename_i c hc
    refine Or.inr ⟨c, hc, ?_⟩
    obtain ⟨hne, hfind, hstat⟩ := (confirmationCheck_ok_iff st code c).mp hc
    unfold markAsFailedRepo
    unfold findByCode at hfind
    rw [hfind]

/-- The store after cleanup: unchanged on a validation error, filtered
otherwise. -/
theorem cleanup_fst (st : Store) (days now : Int) :
    (cleanupOldCommands st days now).1 = st ∨
    (cleanupOldCommands st days now).1 =
      { st with commands := st.commands.filter (fun c => !(isOldTerminal (now - days) c)) } := by
  unfold cleanupOldCommands deleteOldRepo
  split
  · exact Or.inl rfl
  · exact Or.inr rfl

/-- Appending a freshly created row preserves the store invariant. -/
theorem inv_create (st : Store) (data : CreateCommandDto) (now : Int) (h : Inv st) :
    Inv { commands := st.commands ++ [createdCommand st data now], nextId := st.nextId + 1,
          created := st.created ++ [createdCommand st data now] } := by
  obtain ⟨hcr, hnd, hbound, htimes⟩ := h
  refine ⟨?_, ?_, ?_, ?_⟩
  · simp only [List.map_append, hcr, List.range_succ, List.map_cons, List.map_nil]
    rfl
  · simp only [List.map_append, List.map_cons, List.map_nil]
    rw [List.nodup_append]
    refine ⟨hnd, List.nodup_singleton _, ?_⟩
    intro y hy hy'
    simp only [List.mem_singleton] at hy'
    subst hy'
    obtain ⟨c, hc, hcode⟩ := List.mem_map.mp hy
    obtain ⟨k, hk, hck⟩ := hbound c hc
    exact absurd (codeOf_injective (hck.symm.trans hcode)) (by omega)
  · intro c hc
    rcases List.mem_append.mp hc with hc | hc
    · obtain ⟨k, hk, hck⟩ := hbound c hc
      exact ⟨k, Nat.lt_succ_of_lt hk, hck⟩
    · simp only [List.mem_singleton] at hc
      subst hc
      exact ⟨st.nextId, Nat.lt_succ_self _, rfl⟩
  · intro c hc
    rcases List.mem_append.mp hc with hc | hc
    · exact htimes c hc
    · simp only [List.mem_singleton] at hc
      subst hc
      exact ⟨fun _ => ⟨rfl, rfl⟩, fun h => by simp [createdCommand] at h,
        fun h => by simp [createdCommand] at h⟩

/-- A code-preserving update of the row found at a code preserves the store
invariant, provided the update preserves the timestamp discipline of the
PENDING row it hits. -/
theorem inv_update (st : Store) (t : String) (g : Command → Command)
    (hg : ∀ x, (g x).code = x.code)
    (c : Command) (hfind : findByCode st t = some c)
    (hgc : timesOK c → c.status = "PENDING" → timesOK (g c))
    (hstat : c.status = "PENDING")
    (h : Inv st) :
    Inv { st with commands := st.commands.map (fun x => if x.code == t then g x else x) } := by
  obtain ⟨hcr, hnd, hbound, htimes⟩ := h
  have hucode : ∀ x : Command, ((if x.code == t then g x else x)).code = x.code := by
    intro x
    by_cases hx : x.code == t
    · rw [if_pos hx, hg]
    · rw [if_neg hx]
  have hcmem : c ∈ st.commands := List.mem_of_find?_eq_some hfind
  have hccode := List.find?_some hfind
  simp only at hccode
  refine ⟨hcr, ?_, ?_, ?_⟩
  · have hmapeq : List.map ((fun c : Command => c.code) ∘ fun x => if x.code == t then g x else x) st.commands
        = List.map (fun c : Command => c.code) st.commands :=
      List.map_congr_left (fun a _ => hucode a)
    rw [List.map_map, hmapeq]
    exact hnd
  · intro y hy
    obtain ⟨x, hx, hxy⟩ := List.mem_map.mp hy
    obtain ⟨k, hk, hck⟩ := hbound x hx
    exact ⟨k, hk, by rw [← hxy, hucode]; exact hck⟩
  · intro y hy
    obtain ⟨x, hx, hxy⟩ := List.mem_map.mp hy
    by_cases hxt : x.code == t
    · have hxc : x = c := by
        apply List.inj_on_of_nodup_map hnd hx hcmem
        rw [beq_iff_eq.mp hxt, beq_iff_eq.mp hccode]
      rw [← hxy, if_pos hxt, hxc]
      exact hgc (htimes c hcmem) hstat
    · rw [← hxy, if_neg hxt]
      exact htimes x hx

/-- Any filtering of the rows preserves the store invariant. -/
theorem inv_filter (st : Store) (p : Command → Bool) (h : Inv st) :
    Inv { st with commands := st.commands.filter p } := by
  obtain ⟨hcr, hnd, hbound, htimes⟩ := h
  refine ⟨hcr, ?_, ?_, ?_⟩
  · exact List.Nodup.sublist (List.Sublist.map _ (List.filter_sublist st.commands)) hnd
  · intro c hc
    exact hbound c (List.mem_of_mem_filter hc)
  · intro c hc
    exact htimes c (List.mem_of_mem_filter hc)

/-- Every service transition preserves the store invariant. -/
theorem inv_step (st st' : Store) (h : Inv st) (hs : Step st st') : Inv st' := by
  cases hs with
  | create data now =>
    rcases createCommand_fst st data now with he | he
    · rw [he]; exact h
    · rw [he]; exact inv_create st data now h
  | markExecuted code now =>
    rcases markExecuted_fst st code now with he | he
    · rw [he]; exact h
    · obtain ⟨c, hc, he⟩ := he
      obtain ⟨hne, hfind, hstat⟩ := (confirmationCheck_ok_iff st code c).mp hc
      rw [he]
      refine inv_update st (jsTrim code) (applyExecuted now) (fun x => rfl) c hfind
        (fun ht hp =>
          ⟨fun hx => absurd (show ("EXECUTED" : String) = "PENDING" from hx) (by decide),
           fun _ => ⟨Option.some_ne_none now, (ht.1 hp).2⟩,
           fun hx => absurd (show ("EXECUTED" : String) = "FAILED" from hx) (by decide)⟩) hstat h
  | markFailed code msg now =>
    rcases markFailed_fst st code msg now with he | he
    · rw [he]; exact h
    · obtain ⟨c, hc, he⟩ := he
      obtain ⟨hne, hfind, hstat⟩ := (confirmationCheck_ok_iff st code c).mp hc
      rw [he]
      refine inv_update st (jsTrim code) (applyFailed now (msg.map jsTrim)) (fun x => rfl) c hfind
        (fun ht hp =>
          ⟨fun hx => absurd (show ("FAILED" : String) = "PENDING" from hx) (by decide),
           fun hx => absurd (show ("FAILED" : String) = "EXECUTED" from hx) (by decide),
           fun _ => ⟨Option.some_ne_none now, (ht.1 hp).1⟩⟩) hstat h
  | cleanup days now =>
    rcases cleanup_fst st days now with he | he
    · rw [he]; exact h
    · rw [he]; exact inv_filter st _ h

/-- A fresh deployment satisfies the store invariant. -/
theorem inv_empty : Inv emptyStore :=
  ⟨rfl, List.nodup_nil, fun c hc => absurd hc (List.not_mem_nil c),
   fun c hc => absurd hc (List.not_mem_nil c)⟩

/-- Every reachable store satisfies the store invariant. -/
theorem inv_reach (st : Store) (h : Reach st) : Inv st := by
  induction h with
  | init => exact inv_empty
  | step _ hs ih => exact inv_step _ _ ih hs

/-- C4: in every reachable store both timestamps are null while a command is
PENDING and exactly the matching one is non-null once it is EXECUTED or FAILED;
and every successfully created command starts PENDING with both timestamps null. -/
theorem c4_status_timestamp_invariant :
    (∀ st, Reach st → ∀ c ∈ st.commands,
      (c.status = "PENDING" → c.executedAt = none ∧ c.failedAt = none) ∧
      (c.status = "EXECUTED" → c.executedAt ≠ none ∧ c.failedAt = none) ∧
      (c.status = "FAILED" → c.failedAt ≠ none ∧ c.executedAt = none)) ∧
    (∀ st data now st' c, createCommand st data now = (st', .ok c) →
      c.status = "PENDING" ∧ c.executedAt = none ∧ c.failedAt = none) := by
  constructor
  · intro st h
    exact (inv_reach st h).2.2.2
  · intro st data now st' c h
    rw [(createCommand_ok_inv st st' data now c h).2.2.2.2.1]
    exact ⟨rfl, rfl, rfl⟩

def c4data : CreateCommandDto := { deviceId := "D1", action := "open", drawer := some 1 }

def c4st1 : Store := (createCommand emptyStore c4data 0).1

def c4st2 : Store := (markCommandAsExecuted c4st1 (codeOf 0) 1).1

/-- Witness for C4 along the concrete trace create-then-markExecuted. -/
theorem c4_witness :
    (∀ c ∈ c4st2.commands,
      (c.status = "PENDING" → c.executedAt = none ∧ c.failedAt = none) ∧
      (c.status = "EXECUTED" → c.executedAt ≠ none ∧ c.failedAt = none) ∧
      (c.status = "FAILED" → c.failedAt ≠ none ∧ c.executedAt = none)) ∧
    ((createdCommand emptyStore c4data 0).status = "PENDING" ∧
     (createdCommand emptyStore c4data 0).executedAt = none ∧
     (createdCommand emptyStore c4data 0).failedAt = none) :=
  ⟨c4_status_timestamp_invariant.1 c4st2
     (Reach.step (Reach.step Reach.init (Step.create emptyStore c4data 0))
       (Step.markExecuted c4st1 (codeOf 0) 1)),
   c4_status_timestamp_invariant.2 emptyStore c4data 0 c4st1
     (createdCommand emptyStore c4data 0) rfl⟩

/-- C8: in every reachable store, all commands ever created carry pairwise
distinct codes. -/
theorem c8_code_uniqueness (st : Store) (h : Reach st) :
    st.created.Pairwise (fun a b => a.code ≠ b.code) := by
  have hnd : (st.created.map (fun c => c.code)).Nodup := by
    rw [(inv_reach st h).1]
    exact List.Nodup.map codeOf_injective (List.nodup_range st.nextId)
  exact List.pairwise_map.mp hnd

def c8data1 : CreateCommandDto := { deviceId := "D1", action := "OPEN", drawer := some 1 }

def c8data2 : CreateCommandDto := { deviceId := "D1", action := "CLOSE", drawer := none }

def c8st1 : Store := (createCommand emptyStore c8data1 0).1

def c8st2 : Store := (createCommand c8st1 c8data2 1).1

/-- Witness for C8 along a concrete two-creation trace. -/
theorem c8_witness :
    c8st2.created.Pairwise (fun a b => a.code ≠ b.code) ∧ c8st2.created.length = 2 :=
  ⟨c8_code_uniqueness c8st2
     (Reach.step (Reach.step Reach.init (Step.create emptyStore c8data1 0))
       (Step.create c8st1 c8data2 1)),
   by decide⟩



/-- The repository write succeeds whenever some row holds the code, whatever
its status: the update's where clause checks the code only. -/
theorem markAsExecutedRepo_of_find (st : Store) (t : String) (now : Int) (d : Command)
    (hfind : findByCode st t = some d) :
    markAsExecutedRepo st t now =
      some ({ st with commands := st.commands.map (fun x => if x.code == t then applyExecuted now x else x) }, applyExecuted now d) := by
  unfold markAsExecutedRepo
  unfold findByCode at hfind
  rw [hfind]

/-- C2 amended: the PENDING guard is a separate service-level read
(`confirmationCheck`) followed by a separate repository write whose where
clause matches the code only, not an atomic check-and-set: when two
confirmations of the same PENDING command interleave as read, read, write,
write, both check phases accept and both writes succeed (the second overwrites
the already-confirmed row), so racing confirmations do not serialize with
exactly one success. -/
theorem c2_read_then_write_race (st : Store) (code : String) (c : Command)
    (hne : jsTrim code ≠ "") (hfind : findByCode st (jsTrim code) = some c)
    (hstat : c.status = "PENDING") (now1 now2 : Int) :
    confirmationCheck st code = .ok c ∧
    ∃ st1, markAsExecutedRepo st (jsTrim code) now1 = some (st1, applyExecuted now1 c) ∧
      findByCode st1 (jsTrim code) = some (applyExecuted now1 c) ∧
      (applyExecuted now1 c).status ≠ "PENDING" ∧
      ∃ st2, markAsExecutedRepo st1 (jsTrim code) now2 =
          some (st2, applyExecuted now2 (applyExecuted now1 c)) := by
  have hc : confirmationCheck st code = .ok c :=
    (confirmationCheck_ok_iff st code c).mpr ⟨hne, hfind, hstat⟩
  refine ⟨hc, ?_⟩
  have hfind1 := findByCode_after_update st (jsTrim code) (applyExecuted now1) (fun x => rfl) c hfind
  refine ⟨_, markAsExecutedRepo_of_find st (jsTrim code) now1 c hfind, hfind1, ?_, ?_⟩
  · intro hx
    exact absurd (show ("EXECUTED" : String) = "PENDING" from hx) (by decide)
  · exact ⟨_, markAsExecutedRepo_of_find _ (jsTrim code) now2 _ hfind1⟩

def raceCmd : Command :=
  { id := "i0", deviceId := "D1", code := "AAA", action := "OPEN", drawer := some 1,
    status := "PENDING", createdAt := 0, executedAt := none, failedAt := none, errorMessage := none }

def raceStore : Store := { commands := [raceCmd], nextId := 0, created := [] }

def raceStore1 : Store := { raceStore with commands := [applyExecuted 5 raceCmd] }

def raceStore2 : Store := { raceStore with commands := [applyExecuted 6 (applyExecuted 5 raceCmd)] }

/-- C2 counterexample: on a concrete one-command store, both interleaved
confirmations of code AAA complete successfully - the check accepts once
against the shared pre-state and each of the two writes succeeds, the second
despite the row already being EXECUTED - refuting that the guard acts as an
atomic check-and-set under which exactly one racing confirmation succeeds. -/
theorem c2_atomicity_counterexample :
    confirmationCheck raceStore "AAA" = .ok raceCmd ∧
    markAsExecutedRepo raceStore "AAA" 5 = some (raceStore1, applyExecuted 5 raceCmd) ∧
    (applyExecuted 5 raceCmd).status = "EXECUTED" ∧
    markAsExecutedRepo raceStore1 "AAA" 6 =
      some (raceStore2, applyExecuted 6 (applyExecuted 5 raceCmd)) ∧
    (applyExecuted 6 (applyExecuted 5 raceCmd)).executedAt = some 6 := by
  refine ⟨?_, ?_, ?_, ?_, ?_⟩
  all_goals decide

/-- Witness for the amended C2 on the concrete racing store. -/
theorem c2_read_then_write_race_witness :
    jsTrim "AAA" ≠ "" ∧
    (confirmationCheck raceStore "AAA" = .ok raceCmd ∧
     ∃ st1, markAsExecutedRepo raceStore (jsTrim "AAA") 5 = some (st1, applyExecuted 5 raceCmd) ∧
       findByCode st1 (jsTrim "AAA") = some (applyExecuted 5 raceCmd) ∧
       (applyExecuted 5 raceCmd).status ≠ "PENDING" ∧
       ∃ st2, markAsExecutedRepo st1 (jsTrim "AAA") 6 =
           some (st2, applyExecuted 6 (applyExecuted 5 raceCmd))) :=
  ⟨by decide, c2_read_then_write_race raceStore "AAA" raceCmd (by decide) (by decide) rfl 5 6⟩


end SmartDrawer
